import Mathlib

/-
Verification of the job-tracking extraction pipeline (job_tracker.py).

The development shallowly embeds the extraction pipeline of
EnhancedJobTracker: the heuristic fallback extractor (fallback_extraction),
the formatting of an inference-service response (parse_ollama_response),
the retry/fallback orchestration (try_ollama_extraction,
extract_with_ollama, extract_job_info_from_content), URL content cleanup
(extract_from_url), the duplicate check and store update (save_job_info),
and the input routing (add_job_from_input and the add_job_from_* family).

Strings are modelled as Lean String (a structure holding a List Char);
every string operation used by the Python code is re-implemented on the
character list so that proofs can compute.  Each regular expression of the
source is hand-compiled to an explicit matcher with Python re semantics:
leftmost search, alternatives tried in order, greedy quantifiers with
backtracking where backtracking can matter (each spot where greedy
matching without backtracking is provably equivalent is noted).  External
effects (HTTP fetch, the inference service, the filesystem, the clock) are
modelled as explicit oracle parameters.
-/

/-- Python str.isspace / regex whitespace class for ASCII text:
space, tab, newline, carriage return, vertical tab, form feed. -/
def pyIsSpace (c : Char) : Bool :=
  c == ' ' || c == '\t' || c == '\n' || c == '\r' || c == '\x0b' || c == '\x0c'

/-- The character class matched by [A-Z] or [a-z] under re.IGNORECASE
(ASCII letters). -/
def asciiAlpha (c : Char) : Bool := c.isAlpha

/-- The character class [\d,] used by the salary patterns. -/
def digitComma (c : Char) : Bool := c.isDigit || c == ','

/-- The character class [^\n]. -/
def nonNl (c : Char) : Bool := !(c == '\n')

/-- The character class [^.\n]. -/
def nonDotNl (c : Char) : Bool := !(c == '.') && !(c == '\n')

/-- The character class [\s:]. -/
def wsOrColon (c : Char) : Bool := pyIsSpace c || c == ':'

/-- The character class [a-zA-Z\s&.,] of the company patterns. -/
def companyClass (c : Char) : Bool :=
  asciiAlpha c || pyIsSpace c || c == '&' || c == '.' || c == ','

/-- The character class [_\s-] of the job-type pattern. -/
def sepClass (c : Char) : Bool := c == '_' || pyIsSpace c || c == '-'

/-- Strip whitespace from both ends of a character list (Python str.strip). -/
def stripList (l : List Char) : List Char :=
  ((l.dropWhile pyIsSpace).reverse.dropWhile pyIsSpace).reverse

/-- Python str.strip on strings. -/
def pyStrip (s : String) : String := ⟨stripList s.data⟩

/-- Python s[:n] (slice of the first n characters). -/
def pyTake (n : Nat) (s : String) : String := ⟨s.data.take n⟩

/-- Python str.lower (ASCII case folding, as used on the ASCII data here). -/
def pyLower (s : String) : String := ⟨s.data.map Char.toLower⟩

/-- Python str.startswith. -/
def strHasStart (s pat : String) : Bool := s.data.take pat.data.length == pat.data

/-- Python str.endswith. -/
def strHasEnd (s pat : String) : Bool :=
  s.data.drop (s.data.length - pat.data.length) == pat.data

/-- Match a case-insensitive literal at the head of the input; on success
return the original consumed characters and the remaining input. -/
def litCIKeep : List Char → List Char → Option (List Char × List Char)
  | [], s => some ([], s)
  | _ :: _, [] => none
  | p :: ps, c :: cs =>
    if p.toLower == c.toLower then
      (litCIKeep ps cs).map (fun pr => (c :: pr.1, pr.2))
    else
      none

/-- Try a list of case-insensitive literal alternatives in order (regex
alternation order); return consumed original text and the rest. -/
def firstLitKeep : List String → List Char → Option (List Char × List Char)
  | [], _ => none
  | a :: rest, s =>
    match litCIKeep a.data s with
    | some pr => some pr
    | none => firstLitKeep rest s

/-- Greedy \s+ where the following pattern element cannot begin with a
whitespace character, so the maximal run is the only viable choice and no
backtracking is needed.  Returns (consumed, rest); fails on an empty run. -/
def plusSpaceKeep (s : List Char) : Option (List Char × List Char) :=
  let w := s.takeWhile pyIsSpace
  if w.isEmpty then none else some (w, s.drop w.length)

/-- Try lengths n, n-1, ..., lo in order (greedy backtracking for a
counted quantifier). -/
def descendLens (k : Nat → Option (List Char)) (lo : Nat) : Nat → Option (List Char)
  | 0 => if lo == 0 then k 0 else none
  | Nat.succ n =>
    if Nat.succ n < lo then none
    else
      match k (Nat.succ n) with
      | some r => some r
      | none => descendLens k lo n

/-- Greedy counted class quantifier CLASS{lo,hi} with backtracking: the
continuation k receives the consumed span and the rest, longest first. -/
def greedyCount (p : Char → Bool) (lo hi : Nat) (s : List Char)
    (k : List Char → List Char → Option (List Char)) : Option (List Char) :=
  let runLen := min (s.takeWhile p).length hi
  descendLens (fun n => k (s.take n) (s.drop n)) lo runLen

/-- re.search: try the matcher at every start position, leftmost first. -/
def reSearch (m : List Char → Option (List Char)) : List Char → Option (List Char)
  | [] => m []
  | c :: cs =>
    match m (c :: cs) with
    | some r => some r
    | none => reSearch m cs

/-- Scan for positions just after a newline (the (?:^|\n) alternation under
re.MULTILINE: the capture may start right after any newline). -/
def lineStartScan (m : List Char → Option (List Char)) : List Char → Option (List Char)
  | [] => none
  | c :: cs =>
    if c == '\n' then
      match m cs with
      | some r => some r
      | none => lineStartScan m cs
    else
      lineStartScan m cs

/-- re.search for a pattern of shape (?:^|\n)GROUP under re.MULTILINE: the
group may start at position 0 or right after any newline, leftmost first. -/
def searchLineStart (m : List Char → Option (List Char)) (s : List Char) : Option (List Char) :=
  match m s with
  | some r => some r
  | none => lineStartScan m s

/-! ### Matchers for the fallback_extraction regular expressions

Each matcher implements one regex of fallback_extraction at a fixed start
position and returns the text the source code consumes from the match
(group(1), or the whole match for the first salary pattern). -/

/-- The label alternation (?:job\s+title|position|role) of the first title
pattern; returns the rest of the input after the label.  In job\s+title the
greedy \s+ needs no backtracking because the following literal starts with
a non-whitespace character. -/
def titleLabelAt (s : List Char) : Option (List Char) :=
  (do
    let pr1 ← litCIKeep "job".data s
    let pr2 ← plusSpaceKeep pr1.2
    let pr3 ← litCIKeep "title".data pr2.2
    pure pr3.2)
  <|> (litCIKeep "position".data s).map Prod.snd
  <|> (litCIKeep "role".data s).map Prod.snd

/-- The common suffix [\s:]+([^\n]{lo,hi}) of the labelled title, company
and location patterns: a greedy backtracking [\s:]+ followed by the greedy
bounded capture of non-newline characters. -/
def labelCapture (lo hi : Nat) (r : List Char) : Option (List Char) :=
  greedyCount wsOrColon 1 r.length r (fun _ rest =>
    greedyCount nonNl lo hi rest (fun g _ => some g))

/-- Title pattern 1: (?:job\s+title|position|role)[\s:]+([^\n]{10,100}),
group(1). -/
def titlePat1At (s : List Char) : Option (List Char) :=
  (titleLabelAt s).bind (labelCapture 10 100)

/-- Title patterns 2 and 3 without their (?:^|\n) anchor:
[A-Z][^.\n]{10,80}(?:suffix1|...), group(1).  Under re.IGNORECASE the
class [A-Z] matches any ASCII letter. -/
def roleSuffixAt (suffixes : List String) (s : List Char) : Option (List Char) :=
  match s with
  | [] => none
  | c :: rest =>
    if asciiAlpha c then
      greedyCount nonDotNl 10 80 rest (fun mid r2 =>
        (firstLitKeep suffixes r2).map (fun pr => c :: (mid ++ pr.1)))
    else
      none

/-- Company pattern 1: (?:company|employer|organization)[\s:]+([^\n]{2,50}),
group(1). -/
def companyPat1At (s : List Char) : Option (List Char) :=
  (firstLitKeep ["company", "employer", "organization"] s).bind
    (fun pr => labelCapture 2 50 pr.2)

/-- Company pattern 2: (?:at|@)\s+([A-Z][a-zA-Z\s&.,]{2,40}), group(1).
The greedy \s+ needs no backtracking because the group starts with a
letter; the counted class ends the pattern, so its greedy maximum wins. -/
def companyPat2At (s : List Char) : Option (List Char) := do
  let pr1 ← (litCIKeep "at".data s) <|> (litCIKeep "@".data s)
  match pr1.2 with
  | [] => none
  | _ :: _ =>
    let pr2 ← plusSpaceKeep pr1.2
    match pr2.2 with
    | c :: r3 =>
      if asciiAlpha c then
        greedyCount companyClass 2 40 r3 (fun mid _ => some (c :: mid))
      else
        none
    | [] => none

/-- Company pattern 3:
([A-Z][a-zA-Z\s&.,]{2,40})(?:\s+is\s+(?:hiring|looking|seeking)), group(1).
The counted class backtracks against the mandatory tail; the two \s+ of the
tail need no backtracking because is/hiring/looking/seeking start with
non-whitespace letters. -/
def companyPat3At (s : List Char) : Option (List Char) :=
  match s with
  | [] => none
  | c :: rest =>
    if asciiAlpha c then
      greedyCount companyClass 2 40 rest (fun mid r2 => do
        let pr3 ← plusSpaceKeep r2
        let pr4 ← litCIKeep "is".data pr3.2
        let pr5 ← plusSpaceKeep pr4.2
        let _ ← firstLitKeep ["hiring", "looking", "seeking"] pr5.2
        pure (c :: mid))
    else
      none

/-- The optional range part (?:\s*-\s*\$[\d,]+)? of salary pattern 1;
returns (consumed, rest), with ([], input) when absent.  Each \s* is
followed by a non-whitespace mandatory character, so greedy runs are
exact. -/
def optRangeDollar (r : List Char) : List Char × List Char :=
  let w1 := r.takeWhile pyIsSpace
  match r.drop w1.length with
  | '-' :: r2 =>
    let w2 := r2.takeWhile pyIsSpace
    (match r2.drop w2.length with
     | '$' :: r3 =>
       let ds := r3.takeWhile digitComma
       if ds.isEmpty then ([], r)
       else (w1 ++ '-' :: (w2 ++ '$' :: ds), r3.drop ds.length)
     | _ => ([], r))
  | _ => ([], r)

/-- The optional unit part (?:\s*(?:per|/)\s*(?:year|hour|yr|hr|annum))? of
salary pattern 1; returns (consumed, rest), with ([], input) when absent.
If per matches but no unit follows, the / alternative cannot match at the
same position (different first character), so the whole group is absent,
as in the source regex. -/
def optPerUnit (r : List Char) : List Char × List Char :=
  let w1 := r.takeWhile pyIsSpace
  let r1 := r.drop w1.length
  match (litCIKeep "per".data r1) <|> (litCIKeep "/".data r1) with
  | some (ptxt, r2) =>
    let w2 := r2.takeWhile pyIsSpace
    let r3 := r2.drop w2.length
    (match firstLitKeep ["year", "hour", "yr", "hr", "annum"] r3 with
     | some (utxt, r4) => (w1 ++ ptxt ++ w2 ++ utxt, r4)
     | none => ([], r))
  | none => ([], r)

/-- Salary pattern 1:
\$[\d,]+(?:\s*-\s*\$[\d,]+)?(?:\s*(?:per|/)\s*(?:year|hour|yr|hr|annum))?
The code stores match.group(), the whole match.  The greedy [\d,]+ runs
need no backtracking: every later pattern element starts with a character
outside [\d,], and everything after the first run is optional. -/
def salaryPat1At (s : List Char) : Option (List Char) :=
  match s with
  | '$' :: r =>
    let ds := r.takeWhile digitComma
    if ds.isEmpty then none
    else
      let r1 := r.drop ds.length
      let (t1, r2) := optRangeDollar r1
      let (t2, _) := optPerUnit r2
      some ('$' :: (ds ++ t1 ++ t2))
  | _ => none

/-- The optional k? of salary pattern 2.  Greedy consumption is exact:
when the next character is k, declining it cannot make the following
elements (a dash, whitespace, per/annually//year) match. -/
def optK (r : List Char) : List Char × List Char :=
  match r with
  | c :: rest => if c.toLower == 'k' then ([c], rest) else ([], r)
  | [] => ([], r)

/-- The mandatory tail \s*(?:per\s+year|annually|/year) of salary
pattern 2; returns (consumed, rest). -/
def salary2Tail (r : List Char) : Option (List Char × List Char) :=
  let w := r.takeWhile pyIsSpace
  let r1 := r.drop w.length
  let alt1 : Option (List Char × List Char) := do
    let (p1, a) ← litCIKeep "per".data r1
    let (sp, b) ← plusSpaceKeep a
    let (y1, cRest) ← litCIKeep "year".data b
    pure (p1 ++ sp ++ y1, cRest)
  match alt1 <|> litCIKeep "annually".data r1 <|> litCIKeep "/year".data r1 with
  | some (t, rest) => some (w ++ t, rest)
  | none => none

/-- The optional range (?:\s*-\s*[\d,]+k?)? of salary pattern 2. -/
def optRangePlain (r : List Char) : List Char × List Char :=
  let w1 := r.takeWhile pyIsSpace
  match r.drop w1.length with
  | '-' :: r2 =>
    let w2 := r2.takeWhile pyIsSpace
    let r3 := r2.drop w2.length
    let ds := r3.takeWhile digitComma
    if ds.isEmpty then ([], r)
    else
      let r4 := r3.drop ds.length
      let (k2, r5) := optK r4
      (w1 ++ '-' :: (w2 ++ ds ++ k2), r5)
  | _ => ([], r)

/-- Salary pattern 2: [\d,]+k?(?:\s*-\s*[\d,]+k?)?\s*(?:per\s+year|annually|/year)
as a whole match.  If the tail fails with the optional range consumed, the
engine backtracks and retries with the range absent; the greedy [\d,]+ and
k? need no backtracking (disjoint following characters). -/
def salaryPat2At (s : List Char) : Option (List Char) :=
  let ds := s.takeWhile digitComma
  if ds.isEmpty then none
  else
    let r1 := s.drop ds.length
    let (k1, r2) := optK r1
    let (rg, r3) := optRangePlain r2
    match salary2Tail r3 with
    | some (t, _) => some (ds ++ k1 ++ rg ++ t)
    | none =>
      if rg.isEmpty then none
      else
        match salary2Tail r2 with
        | some (t, _) => some (ds ++ k1 ++ t)
        | none => none

/-- Location pattern 1: (?:location|based in|located in)[\s:]+([^\n]{5,50}),
group(1). -/
def locationPat1At (s : List Char) : Option (List Char) :=
  (firstLitKeep ["location", "based in", "located in"] s).bind
    (fun pr => labelCapture 5 50 pr.2)

/-- Location pattern 2: ([A-Z][a-z]+,\s*[A-Z]{2}(?:\s+\d{5})?), group(1).
Under re.IGNORECASE both letter classes match any ASCII letter.  The
greedy [a-z]+ is exact (a comma must follow), \s* is exact (letters
follow), and \d{5} consumes exactly five digits when the optional part
is present. -/
def locationPat2At (s : List Char) : Option (List Char) :=
  match s with
  | [] => none
  | c :: rest =>
    if asciiAlpha c then
      let letters := rest.takeWhile asciiAlpha
      if letters.isEmpty then none
      else
        match rest.drop letters.length with
        | ',' :: r2 =>
          let w := r2.takeWhile pyIsSpace
          (match r2.drop w.length with
           | a :: b :: r3 =>
             if asciiAlpha a && asciiAlpha b then
               let core := c :: (letters ++ ',' :: (w ++ [a, b]))
               let w2 := r3.takeWhile pyIsSpace
               if w2.isEmpty then some core
               else
                 let r4 := r3.drop w2.length
                 let ds := (r4.takeWhile Char.isDigit).take 5
                 if ds.length == 5 then some (core ++ w2 ++ ds) else some core
             else none
           | _ => none)
        | _ => none
    else none

/-- Location pattern 3: ([A-Z][a-z]+,\s*[A-Z][a-z]+), group(1); the final
greedy letter run ends the pattern, so its maximum wins. -/
def locationPat3At (s : List Char) : Option (List Char) :=
  match s with
  | [] => none
  | c :: rest =>
    if asciiAlpha c then
      let l1 := rest.takeWhile asciiAlpha
      if l1.isEmpty then none
      else
        match rest.drop l1.length with
        | ',' :: r2 =>
          let w := r2.takeWhile pyIsSpace
          (match r2.drop w.length with
           | d :: r3 =>
             if asciiAlpha d then
               let l2 := r3.takeWhile asciiAlpha
               if l2.isEmpty then none
               else some (c :: (l1 ++ ',' :: (w ++ d :: l2)))
             else none
           | [] => none)
        | _ => none
    else none

/-- One alternative head[_\s-]?tail of the job-type pattern: the optional
separator is tried consumed first, then absent (greedy backtracking). -/
def sepWordAt (head tail : String) (s : List Char) : Option (List Char) :=
  (litCIKeep head.data s).bind (fun pr =>
    (match pr.2 with
     | c :: r2 =>
       if sepClass c then
         (litCIKeep tail.data r2).map (fun pr2 => pr.1 ++ c :: pr2.1)
       else none
     | [] => none)
    <|> (litCIKeep tail.data pr.2).map (fun pr2 => pr.1 ++ pr2.1))

/-- Job-type pattern:
(full[_\s-]?time|part[_\s-]?time|contract|temporary|intern), group(1). -/
def jobTypePatAt (s : List Char) : Option (List Char) :=
  sepWordAt "full" "time" s
  <|> sepWordAt "part" "time" s
  <|> (litCIKeep "contract".data s).map Prod.fst
  <|> (litCIKeep "temporary".data s).map Prod.fst
  <|> (litCIKeep "intern".data s).map Prod.fst

/-! ### Data model -/

/-- The optional keys the pipeline may place into other_info. -/
structure OtherInfo where
  location : Option String
  salary : Option String
  requirements : Option String
  job_type : Option String
deriving DecidableEq, Repr

/-- A JobDraft: the dict produced by either extraction path
(title/company/description/other_info). -/
structure JobDraft where
  title : String
  company : String
  description : String
  other_info : OtherInfo
deriving DecidableEq, Repr

/-- A JobRecord: JobDraft plus the provenance fields added by
extract_job_info_from_content. -/
structure JobRecord where
  draft : JobDraft
  source : String
  source_type : String
  date_added : String
  status : String
  last_update : String
deriving DecidableEq, Repr

/-! ### fallback_extraction (the heuristic extractor) -/

/-- The title/company pattern loop of fallback_extraction: take the first
search result whose stripped group has length strictly between lo and hi;
if a pattern matched but its guard fails, move on to the next pattern;
fall back to the sentinel. -/
def pickGuarded (lo hi : Nat) (sentinel : String) : List (Option (List Char)) → String
  | [] => sentinel
  | none :: rest => pickGuarded lo hi sentinel rest
  | some g :: rest =>
    let t := pyStrip ⟨g⟩
    if lo < t.length && t.length < hi then t else pickGuarded lo hi sentinel rest

/-- The location pattern loop: like pickGuarded but producing an optional
other_info entry instead of a sentinel. -/
def pickOptGuarded (lo hi : Nat) : List (Option (List Char)) → Option String
  | [] => none
  | none :: rest => pickOptGuarded lo hi rest
  | some g :: rest =>
    let t := pyStrip ⟨g⟩
    if lo < t.length && t.length < hi then some t else pickOptGuarded lo hi rest

/-- The salary pattern loop: the first pattern that matches wins, the raw
match.group() is stored without stripping or guards. -/
def firstSome : List (Option (List Char)) → Option String
  | [] => none
  | none :: rest => firstSome rest
  | some g :: _ => some ⟨g⟩

/-- The title of fallback_extraction: three patterns in order, guard
5 < len < 200 on the stripped group, sentinel otherwise. -/
def fallbackTitle (cs : List Char) : String :=
  pickGuarded 5 200 "Unknown Title"
    [reSearch titlePat1At cs,
     searchLineStart (roleSuffixAt
       ["engineer", "developer", "manager", "analyst", "specialist", "coordinator"]) cs,
     searchLineStart (roleSuffixAt ["intern", "associate", "director", "lead"]) cs]

/-- The company of fallback_extraction: three patterns in order, guard
1 < len < 100 on the stripped group, sentinel otherwise. -/
def fallbackCompany (cs : List Char) : String :=
  pickGuarded 1 100 "Unknown Company"
    [reSearch companyPat1At cs,
     reSearch companyPat2At cs,
     reSearch companyPat3At cs]

/-- The description of fallback_extraction: first 500 characters with an
appended "..." when the input is longer than 500 characters, the whole
input otherwise; a blank result falls back to the sentinel. -/
def fallbackDescription (content : String) : String :=
  let d := if content.length > 500 then pyTake 500 content ++ "..." else content
  if (pyStrip d).length == 0 then "No description found" else d

/-- The salary of fallback_extraction: two patterns in order, raw match. -/
def fallbackSalary (cs : List Char) : Option String :=
  firstSome [reSearch salaryPat1At cs, reSearch salaryPat2At cs]

/-- The location of fallback_extraction: three patterns in order, guard
2 < len < 100 on the stripped group. -/
def fallbackLocation (cs : List Char) : Option String :=
  pickOptGuarded 2 100
    [reSearch locationPat1At cs,
     reSearch locationPat2At cs,
     reSearch locationPat3At cs]

/-- The job type of fallback_extraction: a single pattern, group(1). -/
def fallbackJobType (cs : List Char) : Option String :=
  (reSearch jobTypePatAt cs).map (fun g => (⟨g⟩ : String))

/-- fallback_extraction(content, source): the deterministic heuristic
extractor.  The Python source parameter is unused by the function body,
and the except branch is unreachable in this pure model, so both are
omitted. -/
def fallback_extraction (content : String) : JobDraft :=
  { title := fallbackTitle content.data
    company := fallbackCompany content.data
    description := fallbackDescription content
    other_info :=
      { location := fallbackLocation content.data
        salary := fallbackSalary content.data
        requirements := none
        job_type := fallbackJobType content.data } }

/-! ### parse_ollama_response formatting and the LLM extraction client -/

/-- Python dict.get(key, default) on a decoded JSON object, restricted to
the string-valued objects this model covers. -/
def pyGet (d : List (String × String)) (k dflt : String) : String :=
  match List.lookup k d with
  | some v => v
  | none => dflt

/-- Python truthiness filter of the optional-field loop: a key is copied
into other_info only when present with a truthy (non-empty) value. -/
def pyGetOpt (d : List (String × String)) (k : String) : Option String :=
  match List.lookup k d with
  | some v => if v == "" then none else some v
  | none => none

/-- The formatting step of parse_ollama_response (source lines 214-228),
applied to the JSON object decoded from the response text: absent
title/company keys default to the sentinels, the description is truncated
to 500 characters, and only truthy optional fields reach other_info. -/
def formatOllamaData (job_data : List (String × String)) : JobDraft :=
  { title := pyGet job_data "title" "Unknown Title"
    company := pyGet job_data "company" "Unknown Company"
    description := pyTake 500 (pyGet job_data "description" "No description found")
    other_info :=
      { location := pyGetOpt job_data "location"
        salary := pyGetOpt job_data "salary"
        requirements := pyGetOpt job_data "requirements"
        job_type := pyGetOpt job_data "job_type" } }

/-- The outcome of one HTTP call to the inference service for one model:
either an exception (connection error / timeout / other), or a response
with a status code and the JSON object located and decoded from its
response text (none when no parseable object is found). -/
inductive OllamaCall where
  | failure : OllamaCall
  | response : Nat → Option (List (String × String)) → OllamaCall
deriving DecidableEq

/-- The per-model body of the loop in try_ollama_extraction: an exception
or a non-200 status or an unparseable response all yield nothing and the
loop continues; a parsed object is formatted and returned. -/
def callToDraft : OllamaCall → Option JobDraft
  | OllamaCall.failure => none
  | OllamaCall.response status dec =>
    if status == 200 then dec.map formatOllamaData else none

/-- The fixed-priority model candidate list of try_ollama_extraction. -/
def models : List String := ["phi3:mini", "llama3.2", "llama3.1", "llama3", "llama2"]

/-- The inner model loop of try_ollama_extraction over one attempt: try
each model in order, recording the models actually called; the first model
whose call yields a parsed draft stops the loop. -/
def tryModelList (call : String → OllamaCall) : List String → List String × Option JobDraft
  | [] => ([], none)
  | m :: rest =>
    match callToDraft (call m) with
    | some d => ([m], some d)
    | none =>
      let tr := tryModelList call rest
      (m :: tr.1, tr.2)

/-- try_ollama_extraction with max_retries = 2: the oracle gives the call
outcome per (attempt index, model name).  Returns the trace of issued
calls and the extracted draft, if any; a success inside the model loop
returns immediately, short-circuiting both loops.  The blocking sleeps
between attempts have no observable effect in this model. -/
def try_ollama_extraction (call : Nat → String → OllamaCall) :
    List (Nat × String) × Option JobDraft :=
  match tryModelList (call 0) models with
  | (t0, some d) => (t0.map (fun m => (0, m)), some d)
  | (t0, none) =>
    (t0.map (fun m => (0, m)) ++ (tryModelList (call 1) models).1.map (fun m => (1, m)),
     (tryModelList (call 1) models).2)

/-- extract_with_ollama: use the LLM result when available, else the
heuristic fallback (whose source argument is unused). -/
def extract_with_ollama (call : Nat → String → OllamaCall) (content : String) : JobDraft :=
  match (try_ollama_extraction call).2 with
  | some d => d
  | none => fallback_extraction content

/-- extract_job_info_from_content: truncate the content to 8000
characters, extract a draft, and attach provenance; today is the oracle
for datetime.now().strftime.  extract_with_ollama always produces a draft
in this pure model, so the result is always a record. -/
def extract_job_info_from_content (call : Nat → String → OllamaCall) (today : String)
    (content : String) (source_type source : String) : JobRecord :=
  let content := if content.length > 8000 then pyTake 8000 content else content
  { draft := extract_with_ollama call content
    source := source
    source_type := source_type
    date_added := today
    status := "Applied"
    last_update := today }

/-! ### extract_from_url (the URL content acquirer) -/

/-- The outcome of requests.get: an exception (network error or timeout),
or a response carrying a status code and a body text. -/
inductive HttpResult where
  | netErr : HttpResult
  | resp : Nat → String → HttpResult
deriving DecidableEq

/-- Whether the pattern is a case-insensitive front of the input. -/
def litCIFront : List Char → List Char → Bool
  | [], _ => true
  | _ :: _, [] => false
  | p :: ps, c :: cs => p.toLower == c.toLower && litCIFront ps cs

/-- Split the input at the leftmost case-insensitive occurrence of the
pattern: (text before the occurrence, text after it). -/
def firstLitSplit (pat : List Char) : List Char → Option (List Char × List Char)
  | [] => if pat.isEmpty then some ([], []) else none
  | c :: cs =>
    if litCIFront pat (c :: cs) then some ([], (c :: cs).drop pat.length)
    else (firstLitSplit pat cs).map (fun pr => (c :: pr.1, pr.2))

/-- Remove every non-overlapping block openTag[^>]*>.*?closeTag (the
script/style substitutions, case-insensitive, DOTALL, lazy body).  When an
opening tag is found but cannot be completed by a > and a closing tag, no
later occurrence can complete either (any completing > or closing tag
would also complete the earlier one), so the scan stops.  The fuel starts
at the list length; every removal consumes more than one character, so
fuel cannot run out before the scan is done. -/
def removeBlocksAux (openTag closeTag : List Char) : Nat → List Char → List Char
  | 0, s => s
  | Nat.succ fuel, s =>
    match firstLitSplit openTag s with
    | none => s
    | some (pre, rest) =>
      let attrs := rest.takeWhile (fun c => !(c == '>'))
      match rest.drop attrs.length with
      | '>' :: rest2 =>
        (match firstLitSplit closeTag rest2 with
         | some (_, tail) => pre ++ removeBlocksAux openTag closeTag fuel tail
         | none => s)
      | _ => s

/-- Collapse every whitespace run to a single space (the \s+ -> single
space substitution); prevWs records whether the previous character was
part of a run already emitted. -/
def collapseWsGo (prevWs : Bool) : List Char → List Char
  | [] => []
  | c :: rest =>
    if pyIsSpace c then
      if prevWs then collapseWsGo true rest else ' ' :: collapseWsGo true rest
    else
      c :: collapseWsGo false rest

/-- Replace every tag <[^>]+> by a single space; on a < that does not open
a completed non-empty tag the scan advances by one character, as the regex
engine does. -/
def stripTagsAux : Nat → List Char → List Char
  | 0, s => s
  | Nat.succ fuel, s =>
    match s with
    | [] => []
    | '<' :: rest =>
      let inner := rest.takeWhile (fun c => !(c == '>'))
      (match rest.drop inner.length with
       | '>' :: tail =>
         if inner.isEmpty then '<' :: stripTagsAux fuel rest
         else ' ' :: stripTagsAux fuel tail
       | _ => '<' :: stripTagsAux fuel rest)
    | c :: rest => c :: stripTagsAux fuel rest

/-- The HTML cleanup of extract_from_url: drop script blocks, drop style
blocks, turn the remaining tags into spaces, collapse whitespace, strip. -/
def cleanHtml (body : String) : String :=
  let h1 := removeBlocksAux "<script".data "</script>".data body.data.length body.data
  let h2 := removeBlocksAux "<style".data "</style>".data h1.length h1
  let t := collapseWsGo false (stripTagsAux h2.length h2)
  ⟨stripList t⟩

/-- extract_from_url: any exception from requests.get is caught and yields
None; otherwise the body of the response is cleaned and returned.  The
response status code is never inspected. -/
def extract_from_url : HttpResult → Option String
  | HttpResult.netErr => none
  | HttpResult.resp _ body => some (cleanHtml body)

/-! ### Deduplication, persistence and input routing -/

/-- How a submission ended, distinguishing the three False returns of the
source (no extracted info, duplicate, short text) and the acquisition
failures from the one True return. -/
inductive Outcome where
  | added : Outcome
  | duplicateJob : Outcome
  | noJobInfo : Outcome
  | insufficientContent : Outcome
  | acquireFailed : Outcome
deriving DecidableEq, Repr

/-- Result of a submission: the Python boolean, the refined outcome, the
job store after the call, and whether save_jobs persisted it. -/
structure SaveOut where
  ok : Bool
  outcome : Outcome
  jobs : List JobRecord
  persisted : Bool
deriving DecidableEq, Repr

/-- The duplicate scan of save_job_info: some stored record has the same
lowercased title and lowercased company as the candidate. -/
def isDup (jobs : List JobRecord) (j : JobRecord) : Bool :=
  jobs.any (fun e =>
    pyLower e.draft.title == pyLower j.draft.title &&
    pyLower e.draft.company == pyLower j.draft.company)

/-- save_job_info: reject missing info, reject duplicates leaving the
store untouched, otherwise append the record and persist. -/
def save_job_info (jobs : List JobRecord) : Option JobRecord → SaveOut
  | none => ⟨false, Outcome.noJobInfo, jobs, false⟩
  | some j =>
    if isDup jobs j then ⟨false, Outcome.duplicateJob, jobs, false⟩
    else ⟨true, Outcome.added, jobs ++ [j], true⟩

/-- External effects of a submission: the HTTP fetch per URL, the PDF text
extraction per path (none on failure), the text-file read per path (none
on a read error), os.path.exists, the inference-service oracle, and the
current date. -/
structure Env where
  http : String → HttpResult
  pdf : String → Option String
  readTextFile : String → Option String
  pathExists : String → Bool
  call : Nat → String → OllamaCall
  today : String

/-- add_job_from_text: texts under 50 characters are rejected before any
extraction; otherwise extract and save. -/
def add_job_from_text (env : Env) (jobs : List JobRecord) (text_content : String) : SaveOut :=
  if text_content.length < 50 then ⟨false, Outcome.insufficientContent, jobs, false⟩
  else
    save_job_info jobs
      (some (extract_job_info_from_content env.call env.today text_content "text" "Direct Input"))

/-- add_job_from_url: a failed or empty acquisition returns False without
extraction; otherwise extract from the fetched content and save. -/
def add_job_from_url (env : Env) (jobs : List JobRecord) (url : String) : SaveOut :=
  match extract_from_url (env.http url) with
  | none => ⟨false, Outcome.acquireFailed, jobs, false⟩
  | some content =>
    if content == "" then ⟨false, Outcome.acquireFailed, jobs, false⟩
    else
      save_job_info jobs
        (some (extract_job_info_from_content env.call env.today content "url" url))

/-- add_job_from_pdf: extract_from_pdf strips the concatenated page text;
a failed or empty result returns False without extraction. -/
def add_job_from_pdf (env : Env) (jobs : List JobRecord) (pdf_path : String) : SaveOut :=
  match (env.pdf pdf_path).map pyStrip with
  | none => ⟨false, Outcome.acquireFailed, jobs, false⟩
  | some content =>
    if content == "" then ⟨false, Outcome.acquireFailed, jobs, false⟩
    else
      save_job_info jobs
        (some (extract_job_info_from_content env.call env.today content "pdf" pdf_path))

/-- add_job_from_text_file: a read error returns False; the file content
goes to extraction with no emptiness or length check. -/
def add_job_from_text_file (env : Env) (jobs : List JobRecord) (text_path : String) : SaveOut :=
  match env.readTextFile text_path with
  | none => ⟨false, Outcome.acquireFailed, jobs, false⟩
  | some content =>
    save_job_info jobs
      (some (extract_job_info_from_content env.call env.today content "text_file" text_path))

/-- add_job_from_input: strip the input, route anything that starts with
http to the URL path, existing .pdf and .txt paths to the file paths, and
everything else to the direct-text path. -/
def add_job_from_input (env : Env) (jobs : List JobRecord) (user_input : String) : SaveOut :=
  let user_input := pyStrip user_input
  if strHasStart user_input "http" then add_job_from_url env jobs user_input
  else if strHasEnd user_input ".pdf" && env.pathExists user_input then
    add_job_from_pdf env jobs user_input
  else if strHasEnd user_input ".txt" && env.pathExists user_input then
    add_job_from_text_file env jobs user_input
  else add_job_from_text env jobs user_input

/-! ### Helper lemmas -/

/-- String append acts as list append on the character data. -/
theorem strAppend_data (a b : String) : (a ++ b).data = a.data ++ b.data := by
  cases a
  cases b
  rfl

/-- Dropping leading whitespace cannot remove a trailing ellipsis. -/
theorem dropWhile_append_dots (l : List Char) :
    ∃ m, (l ++ ['.', '.', '.']).dropWhile pyIsSpace = m ++ ['.', '.', '.'] := by
  induction l with
  | nil => exact ⟨[], rfl⟩
  | cons c cs ih =>
    by_cases h : pyIsSpace c = true
    · simpa [List.dropWhile_cons, h] using ih
    · exact ⟨c :: cs, by simp [List.dropWhile_cons, h]⟩

/-- Stripping a string that ends in an ellipsis leaves it non-empty. -/
theorem stripList_append_dots_ne_nil (l : List Char) :
    stripList (l ++ ['.', '.', '.']) ≠ [] := by
  obtain ⟨m, hm⟩ := dropWhile_append_dots l
  unfold stripList
  rw [hm]
  have hrev : (m ++ ['.', '.', '.']).reverse = '.' :: ('.' :: ('.' :: m.reverse)) := by
    simp
  rw [hrev]
  have hdot : pyIsSpace '.' = false := by decide
  simp [List.dropWhile_cons, hdot]

/-- The guarded pattern loop returns the sentinel or a string longer
than lo. -/
theorem pickGuarded_spec (lo hi : Nat) (sent : String) (cands : List (Option (List Char))) :
    pickGuarded lo hi sent cands = sent ∨ lo < (pickGuarded lo hi sent cands).length := by
  induction cands with
  | nil => exact Or.inl rfl
  | cons c rest ih =>
    cases c with
    | none => simpa [pickGuarded] using ih
    | some g =>
      simp only [pickGuarded]
      split
      · next h =>
        right
        simp only [Bool.and_eq_true, decide_eq_true_eq] at h
        exact h.1
      · exact ih

/-- With a non-empty sentinel the guarded pattern loop never returns the
empty string. -/
theorem pickGuarded_ne_empty (lo hi : Nat) (sent : String) (hs : sent ≠ "")
    (cands : List (Option (List Char))) : pickGuarded lo hi sent cands ≠ "" := by
  rcases pickGuarded_spec lo hi sent cands with h | h
  · rw [h]; exact hs
  · intro he
    rw [he] at h
    exact Nat.not_lt_zero lo h

/-- The inner model loop returns the whole list and no draft when every
call in it fails. -/
theorem tryModelList_none (call : String → OllamaCall) :
    ∀ ms : List String, (∀ x ∈ ms, callToDraft (call x) = none) →
      tryModelList call ms = (ms, none) := by
  intro ms
  induction ms with
  | nil => intro _; rfl
  | cons m rest ih =>
    intro hf
    simp [tryModelList, hf m (by simp), ih (fun x hx => hf x (by simp [hx]))]

/-- If every model before m fails and m succeeds, the inner model loop
calls exactly the models up to and including m, in order, and stops. -/
theorem tryModelList_first_success (call : String → OllamaCall) (d : JobDraft) :
    ∀ (pre : List String) (m : String) (post : List String),
      (∀ x ∈ pre, callToDraft (call x) = none) →
      callToDraft (call m) = some d →
      tryModelList call (pre ++ m :: post) = (pre ++ [m], some d) := by
  intro pre
  induction pre with
  | nil =>
    intro m post _ hs
    simp [tryModelList, hs]
  | cons c cs ih =>
    intro m post hf hs
    have hc : callToDraft (call c) = none := hf c (by simp)
    have hrec := ih m post (fun x hx => hf x (by simp [hx])) hs
    simp [tryModelList, hc, hrec]

/-! ### Claim theorems -/

/-- A sample stored record used by concrete witnesses. -/
def acmeRec1 : JobRecord :=
  { draft :=
      { title := "Backend Engineer"
        company := "Acme Corp"
        description := "backend role"
        other_info := { location := none, salary := none, requirements := none, job_type := none } }
    source := "Direct Input"
    source_type := "text"
    date_added := "01/02/2026"
    status := "Applied"
    last_update := "01/02/2026" }

/-- The same job with the title in a different case. -/
def acmeRec2 : JobRecord :=
  { acmeRec1 with
    draft := { acmeRec1.draft with title := "backend engineer" } }

/-- C2: two submissions whose (lowercased title, lowercased company) pairs
agree yield exactly one stored record: the first (non-duplicate) one is
appended and persisted, the second is rejected as a duplicate with the
store untouched — including titles differing only in case. -/
theorem claim_C2_idempotent (jobs : List JobRecord) (j1 j2 : JobRecord)
    (hnd : isDup jobs j1 = false)
    (ht : pyLower j1.draft.title = pyLower j2.draft.title)
    (hc : pyLower j1.draft.company = pyLower j2.draft.company) :
    save_job_info jobs (some j1) = ⟨true, Outcome.added, jobs ++ [j1], true⟩ ∧
    save_job_info (jobs ++ [j1]) (some j2) = ⟨false, Outcome.duplicateJob, jobs ++ [j1], false⟩ := by
  constructor
  · simp [save_job_info, hnd]
  · have hdup : isDup (jobs ++ [j1]) j2 = true := by
      simp [isDup, List.any_append, ht, hc]
    simp [save_job_info, hdup]

/-- C2 witness: "Backend Engineer" then "backend engineer" at Acme Corp on
an empty store. -/
theorem claim_C2_witness :
    save_job_info [] (some acmeRec1) = ⟨true, Outcome.added, [acmeRec1], true⟩ ∧
    save_job_info [acmeRec1] (some acmeRec2) = ⟨false, Outcome.duplicateJob, [acmeRec1], false⟩ := by
  have h := claim_C2_idempotent [] acmeRec1 acmeRec2 (by decide) (by decide) (by decide)
  simpa using h

/-- C9: an accepted submission appends exactly the new record at the end
of the store and persists; a duplicate or missing draft leaves the store
unchanged and persists nothing. -/
theorem claim_C9_frame (jobs : List JobRecord) (j : JobRecord) :
    (isDup jobs j = false →
      save_job_info jobs (some j) = ⟨true, Outcome.added, jobs ++ [j], true⟩) ∧
    (isDup jobs j = true →
      save_job_info jobs (some j) = ⟨false, Outcome.duplicateJob, jobs, false⟩) ∧
    save_job_info jobs none = ⟨false, Outcome.noJobInfo, jobs, false⟩ := by
  refine ⟨fun h => by simp [save_job_info, h], fun h => by simp [save_job_info, h], rfl⟩

/-- C9 witness: appending to an empty store. -/
theorem claim_C9_witness :
    save_job_info [] (some acmeRec1) = ⟨true, Outcome.added, [] ++ [acmeRec1], true⟩ :=
  (claim_C9_frame [] acmeRec1).1 (by decide)

/-- An environment in which every external service fails: the inference
service is unreachable, fetches raise, files are absent. -/
def downEnv : Env :=
  { http := fun _ => HttpResult.netErr
    pdf := fun _ => none
    readTextFile := fun _ => none
    pathExists := fun _ => false
    call := fun _ _ => OllamaCall.failure
    today := "01/02/2026" }

/-- C7: a direct text submission under 50 characters is rejected before
any extraction: the result signals insufficient content, the store is
unchanged, and nothing is persisted. -/
theorem claim_C7_short_text (env : Env) (jobs : List JobRecord) (text : String)
    (h : text.length < 50) :
    add_job_from_text env jobs text = ⟨false, Outcome.insufficientContent, jobs, false⟩ := by
  simp [add_job_from_text, h]

/-- C7 witness: a 30-character input is rejected with the store intact. -/
theorem claim_C7_witness :
    add_job_from_text downEnv [] "Thirty characters of text....." =
      ⟨false, Outcome.insufficientContent, [], false⟩ :=
  claim_C7_short_text downEnv [] "Thirty characters of text....." (by decide)

/-- C5: when every inference-service call fails, the orchestrator output
equals the heuristic extractor output on the same text. -/
theorem claim_C5_fallback_equiv (call : Nat → String → OllamaCall) (content : String)
    (h : ∀ a m, call a m = OllamaCall.failure) :
    extract_with_ollama call content = fallback_extraction content := by
  have hfail : ∀ a, ∀ x ∈ models, callToDraft (call a x) = none := by
    intro a x _
    rw [h a x]
    rfl
  have h0 := tryModelList_none (call 0) models (hfail 0)
  have h1 := tryModelList_none (call 1) models (hfail 1)
  simp [extract_with_ollama, try_ollama_extraction, h0, h1]

/-- C5 witness: a fully unreachable service on a concrete text. -/
theorem claim_C5_witness :
    extract_with_ollama (fun _ _ => OllamaCall.failure) "We are hiring" =
      fallback_extraction "We are hiring" :=
  claim_C5_fallback_equiv (fun _ _ => OllamaCall.failure) "We are hiring" (fun _ _ => rfl)

/-- C8: within an attempt the client calls the models of the fixed list in
order; when the models before m all fail and m parses, exactly those
models (K failures plus the success, K+1 calls) are attempted and the
success returns immediately, skipping the rest of the list and the second
attempt; and when all models of attempt 0 fail, the whole list is called
in order and the second attempt follows sequentially. -/
theorem claim_C8_model_order (call : Nat → String → OllamaCall) :
    (∀ (pre : List String) (m : String) (post : List String) (d : JobDraft),
      models = pre ++ m :: post →
      (∀ x ∈ pre, callToDraft (call 0 x) = none) →
      callToDraft (call 0 m) = some d →
      try_ollama_extraction call = ((pre ++ [m]).map (fun x => (0, x)), some d)) ∧
    ((∀ x ∈ models, callToDraft (call 0 x) = none) →
      try_ollama_extraction call =
        (models.map (fun x => (0, x)) ++ (tryModelList (call 1) models).1.map (fun x => (1, x)),
         (tryModelList (call 1) models).2)) := by
  constructor
  · intro pre m post d hsplit hf hs
    have h := tryModelList_first_success (call 0) d pre m post hf hs
    rw [← hsplit] at h
    simp [try_ollama_extraction, h]
  · intro hf
    have h0 := tryModelList_none (call 0) models hf
    simp [try_ollama_extraction, h0]

/-- An oracle whose first two models fail in attempt 0 and whose third
parses. -/
def c8Oracle : Nat → String → OllamaCall :=
  fun a m =>
    if a == 0 && m == "llama3.1" then OllamaCall.response 200 (some [("title", "T")])
    else OllamaCall.failure

/-- C8 witness: with the first two models failing, exactly three models
are called, in priority order, within attempt 0. -/
theorem claim_C8_witness :
    try_ollama_extraction c8Oracle =
      ([(0, "phi3:mini"), (0, "llama3.2"), (0, "llama3.1")],
       some (formatOllamaData [("title", "T")])) := by
  have h := (claim_C8_model_order c8Oracle).1 ["phi3:mini", "llama3.2"] "llama3.1"
    ["llama3", "llama2"] (formatOllamaData [("title", "T")]) rfl (by decide) rfl
  simpa using h

/-- The body served with a 404 status in the C6 counterexample. -/
def notFoundBody : String := "Job not found"

/-- C6 counterexample: the claim says a non-success response status fails
the fetch and aborts the submission, but a 404 response is processed like
any other: its body is returned as content, and a submission built on it
runs extraction and stores a record. -/
theorem claim_C6_counterexample :
    extract_from_url (HttpResult.resp 404 notFoundBody) = some notFoundBody ∧
    (add_job_from_url { downEnv with http := fun _ => HttpResult.resp 404 notFoundBody } []
        "http://gone.example/job").outcome = Outcome.added := by
  constructor
  · rfl
  · decide

/-- C6 amended: the fetch fails exactly on an exception from the GET
(network error or timeout); the response status code is never inspected,
and the body of any received response is cleaned and returned. -/
theorem claim_C6_amended :
    extract_from_url HttpResult.netErr = none ∧
    ∀ (status : Nat) (body : String),
      extract_from_url (HttpResult.resp status body) = some (cleanHtml body) :=
  ⟨rfl, fun _ _ => rfl⟩

/-- C4 counterexample: the claim says title and company are never empty in
any produced JobDraft, but the LLM parse path copies a present-but-empty
title verbatim. -/
theorem claim_C4_counterexample :
    (formatOllamaData [("title", ""), ("company", "Acme Corp")]).title = "" := rfl

/-- C4 amended: the heuristic path always produces non-empty title and
company (a matched group passes a positive length guard, and otherwise the
sentinel is used); on the LLM parse path the sentinels are used exactly
when the keys are absent, while present values — even empty ones — are
copied verbatim. -/
theorem claim_C4_sentinels :
    (∀ content : String,
      (fallback_extraction content).title ≠ "" ∧ (fallback_extraction content).company ≠ "") ∧
    (∀ jd : List (String × String),
      (List.lookup "title" jd = none → (formatOllamaData jd).title = "Unknown Title") ∧
      (List.lookup "company" jd = none → (formatOllamaData jd).company = "Unknown Company")) := by
  refine ⟨fun content => ⟨?_, ?_⟩, fun jd => ⟨fun h => ?_, fun h => ?_⟩⟩
  · exact pickGuarded_ne_empty 5 200 "Unknown Title" (by decide) _
  · exact pickGuarded_ne_empty 1 100 "Unknown Company" (by decide) _
  · simp [formatOllamaData, pyGet, h]
  · simp [formatOllamaData, pyGet, h]

/-- C4 witness: the sentinels on an empty object, and non-emptiness of the
heuristic fields on a concrete input. -/
theorem claim_C4_witness :
    (formatOllamaData []).title = "Unknown Title" ∧
    (fallback_extraction "no recognizable fields").company ≠ "" :=
  ⟨(claim_C4_sentinels.2 []).1 rfl, (claim_C4_sentinels.1 "no recognizable fields").2⟩

/-- For input longer than 500 characters the heuristic description is the
500-character cut with the ellipsis appended (the blank-description
sentinel cannot trigger: the result ends in the ellipsis). -/
theorem fallbackDescription_long {content : String} (hl : content.length > 500) :
    fallbackDescription content = pyTake 500 content ++ "..." := by
  have hdata : (pyTake 500 content ++ "...").data
      = (pyTake 500 content).data ++ ['.', '.', '.'] := by
    rw [strAppend_data]
  have hne : stripList ((pyTake 500 content).data ++ ['.', '.', '.']) ≠ [] :=
    stripList_append_dots_ne_nil _
  have h0 : ((pyStrip (pyTake 500 content ++ "...")).length == 0) = false := by
    apply beq_eq_false_iff_ne.mpr
    intro hc
    apply hne
    have hdd : (pyStrip (pyTake 500 content ++ "...")).data
        = stripList ((pyTake 500 content).data ++ ['.', '.', '.']) := by
      simp [pyStrip, hdata]
    have hlen : (stripList ((pyTake 500 content).data ++ ['.', '.', '.'])).length = 0 := by
      rw [← hdd]
      exact hc
    exact List.length_eq_zero.mp hlen
  simp only [fallbackDescription, if_pos hl, h0, Bool.false_eq_true, if_false]

/-- The length of the 500-cut with ellipsis, for long input. -/
theorem pyTake_dots_length {content : String} (hl : content.length > 500) :
    (pyTake 500 content ++ "...").length = 503 := by
  have hdata : (pyTake 500 content ++ "...").data
      = content.data.take 500 ++ ['.', '.', '.'] := by
    rw [strAppend_data]
    rfl
  have h1 : (pyTake 500 content ++ "...").length
      = (content.data.take 500).length + 3 := by
    show (pyTake 500 content ++ "...").data.length = _
    rw [hdata]
    simp
  rw [h1, List.length_take]
  have h2 : 500 ≤ content.data.length := by
    have : content.length = content.data.length := rfl
    omega
  omega

/-- The heuristic description never exceeds 503 characters. -/
theorem fallbackDescription_le (content : String) :
    (fallbackDescription content).length ≤ 503 := by
  by_cases hl : content.length > 500
  · rw [fallbackDescription_long hl, pyTake_dots_length hl]
  · simp only [fallbackDescription, if_neg hl]
    by_cases hs : ((pyStrip content).length == 0) = true
    · rw [if_pos hs]
      decide
    · rw [if_neg hs]
      omega

/-- C1 amended: the LLM parse path truncates the description to at most
500 characters, but the heuristic path appends a 3-character ellipsis
after its 500-character cut, so its description reaches up to 503
characters: for long input it is exactly the first 500 characters plus
the ellipsis. -/
theorem claim_C1_description_bound :
    (∀ content : String,
      (fallback_extraction content).description.length ≤ 503 ∧
      (content.length > 500 →
        (fallback_extraction content).description = pyTake 500 content ++ "...")) ∧
    (∀ jd : List (String × String), (formatOllamaData jd).description.length ≤ 500) := by
  constructor
  · intro content
    refine ⟨fallbackDescription_le content, fun hl => fallbackDescription_long hl⟩
  · intro jd
    show ((pyGet jd "description" "No description found").data.take 500).length ≤ 500
    rw [List.length_take]
    omega

/-- A 501-character input. -/
def longContent : String := ⟨List.replicate 501 'a'⟩

set_option maxRecDepth 4000 in
/-- C1 counterexample: the claim bounds every description by 500
characters, but the heuristic description of a 501-character input has 503
characters. -/
theorem claim_C1_counterexample :
    ¬ ((fallback_extraction longContent).description.length ≤ 500) := by decide

set_option maxRecDepth 4000 in
/-- C1 witness: the ellipsis shape on the 501-character input. -/
theorem claim_C1_witness :
    (fallback_extraction longContent).description = pyTake 500 longContent ++ "..." :=
  (claim_C1_description_bound.1 longContent).2 (by decide)

/-- The Example 1 input of the specification. -/
def c3Input : String := "Job Title: Backend Engineer\nCompany: Acme Corp\nWe are looking for a backend engineer to join our team in Austin, TX. Salary: $120,000 - $150,000 per year. Full-time position."

/-- The other_info the claim expects for the Example 1 input. -/
def c3ClaimedInfo : OtherInfo :=
  { location := some "Austin, TX"
    salary := some "$120,000 - $150,000"
    requirements := none
    job_type := some "Full-time" }

set_option maxRecDepth 8000 in
/-- C3 counterexample: with the inference service unreachable, the
pipeline draft for the Example 1 input does not carry the claimed
other_info — the greedy salary pattern also captures the trailing
"per year". -/
theorem claim_C3_counterexample :
    (extract_with_ollama (fun _ _ => OllamaCall.failure) c3Input).other_info ≠ c3ClaimedInfo := by
  decide

set_option maxRecDepth 8000 in
/-- C3 amended: on the Example 1 input with the service unreachable the
pipeline yields title "Backend Engineer", company "Acme Corp", the input
itself as description, and other_info with location "Austin, TX", salary
"$120,000 - $150,000 per year" and job_type "Full-time". -/
theorem claim_C3_example :
    extract_with_ollama (fun _ _ => OllamaCall.failure) c3Input =
      { title := "Backend Engineer"
        company := "Acme Corp"
        description := c3Input
        other_info :=
          { location := some "Austin, TX"
            salary := some "$120,000 - $150,000 per year"
            requirements := none
            job_type := some "Full-time" } } := by
  decide

/-- C10 amended: the 50-character minimum applies only to the direct
literal-text path.  Any stripped input starting with "http" is routed to
URL acquisition regardless of length; non-empty URL content, non-blank PDF
content and any text-file content (even empty) proceed to extraction with
no insufficient-content rejection, however short; only empty URL content
and blank PDF content are dropped, as acquisition failures. -/
theorem claim_C10_routing (env : Env) (jobs : List JobRecord) :
    (∀ s : String, strHasStart (pyStrip s) "http" = true →
      add_job_from_input env jobs s = add_job_from_url env jobs (pyStrip s)) ∧
    (∀ url content : String,
      extract_from_url (env.http url) = some content → content ≠ "" →
      add_job_from_url env jobs url =
        save_job_info jobs
          (some (extract_job_info_from_content env.call env.today content "url" url))) ∧
    (∀ path content : String, env.readTextFile path = some content →
      add_job_from_text_file env jobs path =
        save_job_info jobs
          (some (extract_job_info_from_content env.call env.today content "text_file" path))) ∧
    (∀ path content : String, env.pdf path = some content → pyStrip content ≠ "" →
      add_job_from_pdf env jobs path =
        save_job_info jobs
          (some (extract_job_info_from_content env.call env.today (pyStrip content) "pdf" path))) := by
  refine ⟨fun s h => ?_, fun url content h hne => ?_, fun path content h => ?_,
    fun path content h hne => ?_⟩
  · simp [add_job_from_input, h]
  · simp [add_job_from_url, h, hne]
  · simp [add_job_from_text_file, h]
  · simp [add_job_from_pdf, h, hne]

/-- An environment serving an 8-character page body. -/
def shortPageEnv : Env := { downEnv with http := fun _ => HttpResult.resp 200 "Tiny job" }

/-- C10 witness: an http input is routed to the URL path, and its
8-character fetched content (far below 50) still reaches extraction and
storage. -/
theorem claim_C10_witness :
    add_job_from_input shortPageEnv [] "http://x.example/" =
      add_job_from_url shortPageEnv [] (pyStrip "http://x.example/") ∧
    add_job_from_url shortPageEnv [] "http://x.example/" =
      save_job_info []
        (some (extract_job_info_from_content shortPageEnv.call shortPageEnv.today
          "Tiny job" "url" "http://x.example/")) :=
  ⟨(claim_C10_routing shortPageEnv []).1 "http://x.example/" (by decide),
   (claim_C10_routing shortPageEnv []).2.1 "http://x.example/" "Tiny job" (by decide) (by decide)⟩

/-- An environment whose URL fetch yields an empty body. -/
def emptyPageEnv : Env := { downEnv with http := fun _ => HttpResult.resp 200 "" }

/-- C10 counterexample: the claim says URL-acquired content proceeds to
extraction whenever it is shorter than 50 characters, but empty (length 0)
acquired content is dropped as an acquisition failure — the submission
returns False with no extraction, instead of extracting and storing a
record as the claim implies. -/
theorem claim_C10_counterexample :
    add_job_from_input emptyPageEnv [] "http://empty.example/" =
      ⟨false, Outcome.acquireFailed, [], false⟩ ∧
    add_job_from_input emptyPageEnv [] "http://empty.example/" ≠
      save_job_info []
        (some (extract_job_info_from_content emptyPageEnv.call emptyPageEnv.today
          "" "url" "http://empty.example/")) := by
  constructor
  · decide
  · decide
